import Mathlib

/-!
Verification of the real-estate brokerage reporting system.

The relational store (`create.py`) is embedded as lists of rows; dates are
year/month/day triples compared lexicographically (the stored `Date` columns);
money amounts are rationals.  Python `datetime` construction validates its
arguments and raises on an invalid month, so every operation that builds a
datetime is embedded as an `Option`-returning function, `none` being the
raised `ValueError`.  The commission engine (`insert_data.py`) and the report
queries (`query_data.py`) are translated function by function.
-/

namespace RealEstate

/-- A calendar date as stored in a `Date` column (and as carried by a Python
`datetime` at midnight): year, month, day. -/
structure SDate where
  year : ℤ
  month : ℤ
  day : ℤ
deriving DecidableEq, Repr

/-- Date comparison `a <= b`, lexicographic on (year, month, day); this is the
order in which stored ISO dates compare. -/
def dateLE (a b : SDate) : Prop :=
  a.year < b.year ∨ (a.year = b.year ∧
    (a.month < b.month ∨ (a.month = b.month ∧ a.day ≤ b.day)))

instance (a b : SDate) : Decidable (dateLE a b) := by
  unfold dateLE; infer_instance

/-- Date comparison `a < b`, lexicographic on (year, month, day). -/
def dateLT (a b : SDate) : Prop :=
  a.year < b.year ∨ (a.year = b.year ∧
    (a.month < b.month ∨ (a.month = b.month ∧ a.day < b.day)))

instance (a b : SDate) : Decidable (dateLT a b) := by
  unfold dateLT; infer_instance

/-- Gregorian leap-year test, as used by Python's `datetime`. -/
def isLeapYear (y : ℤ) : Prop :=
  y % 4 = 0 ∧ (y % 100 ≠ 0 ∨ y % 400 = 0)

instance (y : ℤ) : Decidable (isLeapYear y) := by
  unfold isLeapYear; infer_instance

/-- Number of days in a month of a given year. -/
def daysInMonth (y m : ℤ) : ℤ :=
  if m = 2 then (if isLeapYear y then 29 else 28)
  else if m = 4 ∨ m = 6 ∨ m = 9 ∨ m = 11 then 30
  else 31

/-- Python's `datetime(year, month, day)` constructor: validates
`1 <= year <= 9999`, `1 <= month <= 12` and the day range, raising
`ValueError` (here: `none`) otherwise. -/
def mkDatetime (y m d : ℤ) : Option SDate :=
  if 1 ≤ y ∧ y ≤ 9999 ∧ 1 ≤ m ∧ m ≤ 12 ∧ 1 ≤ d ∧ d ≤ daysInMonth y m then
    some ⟨y, m, d⟩
  else
    none

/-- The month window computed identically at the top of every query in
`query_data.py`: `start_date = datetime(year, month, 1)`, and
`end_date = datetime(year + 1, 1, 1)` when `month == 12` else
`datetime(year, month + 1, 1)`. -/
def monthWindow (year month : ℤ) : Option (SDate × SDate) :=
  match mkDatetime year month 1 with
  | none => none
  | some st =>
    match (if month = 12 then mkDatetime (year + 1) 1 1
           else mkDatetime year (month + 1) 1) with
    | none => none
    | some en => some (st, en)

/-- Day number of a date (proleptic Gregorian rata die); SQLite's
`julianday` differs from it by a fixed constant, so differences of
`julianday` values equal differences of `ratadie` values. -/
def ratadie (d : SDate) : ℤ :=
  365 * (d.year - 1) + (d.year - 1).fdiv 4 - (d.year - 1).fdiv 100
    + (d.year - 1).fdiv 400
    + (if d.month ≤ 1 then 0 else if d.month = 2 then 31
       else if d.month = 3 then 59 else if d.month = 4 then 90
       else if d.month = 5 then 120 else if d.month = 6 then 151
       else if d.month = 7 then 181 else if d.month = 8 then 212
       else if d.month = 9 then 243 else if d.month = 10 then 273
       else if d.month = 11 then 304 else 334)
    + (if 2 < d.month ∧ isLeapYear d.year then 1 else 0)
    + d.day

/-- `offices` table (`create.py`, class `Office`). -/
structure Office where
  id : ℕ
  address : String
deriving DecidableEq, Repr

/-- `agents` table (`create.py`, class `Agent`). -/
structure Agent where
  id : ℕ
  name : String
  email : String
  phone : String
deriving DecidableEq, Repr

/-- `agent_office` table (`create.py`, class `AgentOffice`). -/
structure AgentOffice where
  id : ℕ
  agent_id : ℕ
  office_id : ℕ
deriving DecidableEq, Repr

/-- `sellers` table (`create.py`, class `Seller`). -/
structure Seller where
  id : ℕ
  name : String
  phone : String
deriving DecidableEq, Repr

/-- `buyers` table (`create.py`, class `Buyer`). -/
structure Buyer where
  id : ℕ
  name : String
  phone : String
deriving DecidableEq, Repr

/-- `listings` table (`create.py`, class `Listing`). -/
structure Listing where
  id : ℕ
  seller_id : ℕ
  bedrooms : ℕ
  bathrooms : ℕ
  listing_price : ℚ
  zip_code : String
  date_of_listing : SDate
  listing_agent_id : ℕ
  office_id : ℕ
  is_sold : ℕ
deriving DecidableEq, Repr

/-- `sales` table (`create.py`, class `Sale`). -/
structure Sale where
  id : ℕ
  buyer_id : ℕ
  sale_price : ℚ
  date_of_sale : SDate
  selling_agent_id : ℕ
  office_id : ℕ
  listing_id : ℕ
deriving DecidableEq, Repr

/-- `commissions` table (`create.py`, class `Commission`). -/
structure Commission where
  id : ℕ
  agent_id : ℕ
  sale_id : ℕ
  amount : ℚ
  date_of_commission : SDate
deriving DecidableEq, Repr

/-- `month_commissions` table (`create.py`, class `MonthlyCommission`). -/
structure MonthlyCommission where
  id : ℕ
  agent_id : ℕ
  date : SDate
  amount : ℚ
deriving DecidableEq, Repr

/-- The relational store: one list of rows per table, in insertion order. -/
structure DB where
  offices : List Office
  agents : List Agent
  agent_office : List AgentOffice
  sellers : List Seller
  buyers : List Buyer
  listings : List Listing
  sales : List Sale
  commissions : List Commission
  month_commissions : List MonthlyCommission
deriving DecidableEq, Repr

/-- The next auto-increment primary key for a table whose rows carry the
given ids (SQLite assigns max existing rowid + 1). -/
def nextId (ids : List ℕ) : ℕ :=
  ids.foldr max 0 + 1

/-- `get_commission_rate` (`insert_data.py`): tiered commission rate,
first match wins. -/
def get_commission_rate (sale_price : ℚ) : ℚ :=
  if sale_price < 100000 then 0.10
  else if sale_price < 200000 then 0.075
  else if sale_price < 500000 then 0.06
  else if sale_price < 1000000 then 0.05
  else 0.04

/-- Insert an element into a list that is sorted descending by `key`,
keeping it sorted: the model of SQL `ORDER BY key DESC`. -/
def insertDescBy {α β : Type} [LinearOrder β] (key : α → β) (x : α) :
    List α → List α
  | [] => [x]
  | y :: ys => if key y < key x then x :: y :: ys else y :: insertDescBy key x ys

/-- Sort a list descending by `key` (insertion sort, stable): the model of
SQL `ORDER BY key DESC`; ties keep their relative order. -/
def sortDescBy {α β : Type} [LinearOrder β] (key : α → β) : List α → List α
  | [] => []
  | x :: xs => insertDescBy key x (sortDescBy key xs)

/-- The commissions of one agent falling in the window `[st, en)`: the rows
of the `Commission`-`Agent` join that land in one `GROUP BY Agent.id` group
in `get_total_commission`. -/
def commsOfAgentInWindow (db : DB) (st en : SDate) (aid : ℕ) : List Commission :=
  db.commissions.filter (fun c =>
    decide (c.agent_id = aid ∧ dateLE st c.date_of_commission ∧
            dateLT c.date_of_commission en))

/-- The insertion loop at the end of `get_total_commission`: for each
`(agent_id, total)` pair, skip it when a `MonthlyCommission` row with that
`agent_id` and `date = end_date` already exists, otherwise add a new row
with `date = end_date` and `amount = total`. -/
def rollupInsert (en : SDate) :
    List (ℕ × ℚ) → List MonthlyCommission → List MonthlyCommission
  | [], rows => rows
  | (a, t) :: rest, rows =>
    if 0 < (rows.filter (fun r => decide (r.agent_id = a ∧ r.date = en))).length then
      rollupInsert en rest rows
    else
      rollupInsert en rest
        (rows ++ [{ id := nextId (rows.map (fun r => r.id)),
                    agent_id := a, date := en, amount := t }])

/-- The grouped aggregate query of `get_total_commission`: the in-window
commissions grouped by agent via the `Agent`-`Commission` inner join (so
only agents with at least one such commission yield a group), each group
summed to an `(agent_id, total)` pair. -/
def rollupPairs (db : DB) (st en : SDate) : List (ℕ × ℚ) :=
  (db.agents.filter (fun a =>
      !(commsOfAgentInWindow db st en a.id).isEmpty)).map
    (fun a => (a.id, ((commsOfAgentInWindow db st en a.id).map
                        (fun c => c.amount)).sum))

/-- `get_total_commission` (`query_data.py`): computes the window
`[datetime(year, month, 1), datetime(year+1 or year, month+1 or 1, 1))`,
groups via `rollupPairs`, orders by total descending, and runs the
skip-or-insert loop over the `MonthlyCommission` table.  `none` models the
`ValueError` raised by `datetime` on an invalid month. -/
def get_total_commission (year month : ℤ) (db : DB) : Option DB :=
  match monthWindow year month with
  | none => none
  | some (st, en) =>
    some { db with
           month_commissions :=
             rollupInsert en (sortDescBy Prod.snd (rollupPairs db st en))
               db.month_commissions }

/-- The sales of one agent falling in the window `[st, en)`: the rows of the
`Sale`-`Agent` join (on `selling_agent_id`) landing in one `GROUP BY
Agent.id` group in `top_agents_by_sales_monthly`. -/
def salesOfAgentInWindow (db : DB) (st en : SDate) (aid : ℕ) : List Sale :=
  db.sales.filter (fun s =>
    decide (s.selling_agent_id = aid ∧ dateLE st s.date_of_sale ∧
            dateLT s.date_of_sale en))

/-- One result row of `top_agents_by_sales_monthly`: agent id, name, email,
phone and the agent's sale count. -/
structure AgentSalesRow where
  agent_id : ℕ
  name : String
  email : String
  phone : String
  sales_count : ℕ
deriving DecidableEq, Repr

/-- `top_agents_by_sales_monthly` (`query_data.py`): joins `Sale` to `Agent`
via `selling_agent_id`, keeps sales in the month window, groups by agent,
counts, orders by count descending and truncates to 5 rows. -/
def top_agents_by_sales_monthly (year month : ℤ) (db : DB) :
    Option (List AgentSalesRow) :=
  match monthWindow year month with
  | none => none
  | some (st, en) =>
    let groups :=
      (db.agents.filter (fun a =>
          !(salesOfAgentInWindow db st en a.id).isEmpty)).map
        (fun a => (a, (salesOfAgentInWindow db st en a.id).length))
    some (((sortDescBy Prod.snd groups).take 5).map
      (fun g => { agent_id := g.1.id, name := g.1.name, email := g.1.email,
                  phone := g.1.phone, sales_count := g.2 }))

/-- `average_days_on_market_monthly` (`query_data.py`): averages
`julianday(date_of_sale) - julianday(date_of_listing)` over the sales of the
month window joined to their listing; SQL `AVG` returns NULL (here: the
inner `none`) when the window holds no rows.  The outer `Option` is
`datetime` validation. -/
def average_days_on_market_monthly (year month : ℤ) (db : DB) :
    Option (Option ℚ) :=
  match monthWindow year month with
  | none => none
  | some (st, en) =>
    let vals := db.sales.filterMap (fun s =>
      if dateLE st s.date_of_sale ∧ dateLT s.date_of_sale en then
        (db.listings.find? (fun l => decide (l.id = s.listing_id))).map
          (fun l => ((ratadie s.date_of_sale - ratadie l.date_of_listing : ℤ) : ℚ))
      else none)
    some (if vals = [] then none else some (vals.sum / vals.length))

/-- `average_selling_price_monthly` (`query_data.py`): averages `sale_price`
over the sales of the month window; SQL `AVG` returns NULL (here: the inner
`none`) when the window holds no rows. -/
def average_selling_price_monthly (year month : ℤ) (db : DB) :
    Option (Option ℚ) :=
  match monthWindow year month with
  | none => none
  | some (st, en) =>
    let prices := (db.sales.filter (fun s =>
        decide (dateLE st s.date_of_sale ∧ dateLT s.date_of_sale en))).map
      (fun s => s.sale_price)
    some (if prices = [] then none else some (prices.sum / prices.length))

/-- `print_monthly_commission_table` (`query_data.py`): note the start date
is built as `datetime(year, month - 1, 1)` while the end date uses the
`month == 12 / month + 1` formula; the returned list holds the
`(agent_id, amount)` pairs it would tabulate.  `none` models the
`ValueError` raised by `datetime` on an invalid month. -/
def print_monthly_commission_table (year month : ℤ) (db : DB) :
    Option (List (ℕ × ℚ)) :=
  match mkDatetime year (month - 1) 1 with
  | none => none
  | some start_date =>
    match (if month = 12 then mkDatetime (year + 1) 1 1
           else mkDatetime year (month + 1) 1) with
    | none => none
    | some end_date =>
      some ((db.month_commissions.filter (fun r =>
          decide (dateLE start_date r.date ∧ dateLT r.date end_date))).map
        (fun r => (r.agent_id, r.amount)))

/-- The error vocabulary of the specification's sale-recording contract
(its §7 names a `DuplicateSaleError` for selling an already-sold listing);
the reference code never signals it, which the theorems below make precise. -/
inductive SaleError where
  | duplicateSale
deriving DecidableEq, Repr

/-- The per-listing loop of `insert_sales` (`insert_data.py`): for the
`idx`-th pending listing, insert a `Sale` copying `sale_price` from the
listing's price and the agent/office from the listing, re-query the largest
sale id, flip the listing's `is_sold` to 1, and insert a `Commission` with
`amount = sale_price * get_commission_rate(sale_price)` and
`date_of_commission = date_of_sale`.  `pick idx l` stands for the
`fake.date_between(listing.date_of_listing, today)` draw. -/
def saleRow (pick : ℕ → Listing → SDate) (buyers : List Buyer) (idx : ℕ)
    (l : Listing) (db : DB) : Sale :=
  { id := nextId (db.sales.map (fun s => s.id)),
    buyer_id := (buyers.getD idx { id := 0, name := "", phone := "" }).id,
    sale_price := l.listing_price,
    date_of_sale := pick idx l,
    selling_agent_id := l.listing_agent_id,
    office_id := l.office_id,
    listing_id := l.id }

/-- The `Commission` object built for one sale: its `sale_id` re-queries the
largest sale id after the `Sale` insert (`session.query(Sale).order_by(
Sale.id.desc()).first().id`), its amount is
`sale.sale_price * get_commission_rate(sale.sale_price)` and its date is the
sale's `date_of_sale`. -/
def commissionRow (pick : ℕ → Listing → SDate) (buyers : List Buyer)
    (idx : ℕ) (l : Listing) (db : DB) : Commission :=
  { id := nextId (db.commissions.map (fun c => c.id)),
    agent_id := l.listing_agent_id,
    sale_id := ((db.sales ++ [saleRow pick buyers idx l db]).map
                  (fun s => s.id)).foldr max 0,
    amount := (saleRow pick buyers idx l db).sale_price *
      get_commission_rate (saleRow pick buyers idx l db).sale_price,
    date_of_commission := (saleRow pick buyers idx l db).date_of_sale }

/-- One iteration of the `insert_sales` loop: insert the `Sale`, flip the
listing's `is_sold` to 1, insert the `Commission`. -/
def salesLoopStep (pick : ℕ → Listing → SDate) (buyers : List Buyer)
    (idx : ℕ) (l : Listing) (db : DB) : DB :=
  { db with
    sales := db.sales ++ [saleRow pick buyers idx l db],
    listings := db.listings.map (fun x =>
      if x.id = l.id then { x with is_sold := 1 } else x),
    commissions := db.commissions ++ [commissionRow pick buyers idx l db] }

/-- The per-listing loop of `insert_sales` (`insert_data.py`): for the
`idx`-th pending listing, run one `salesLoopStep`.  `pick idx l` stands for
the `fake.date_between(listing.date_of_listing, today)` draw. -/
def salesLoop (pick : ℕ → Listing → SDate) (buyers : List Buyer) :
    ℕ → List Listing → DB → DB
  | _, [], db => db
  | idx, l :: rest, db =>
    salesLoop pick buyers (idx + 1) rest (salesLoopStep pick buyers idx l db)

/-- The buyer rows `insert_sales` creates up front: `num_sales` fresh
buyers with consecutive auto-increment ids, names and phones drawn from the
fake-data `oracle`. -/
def newBuyersList (num_sales : ℕ) (oracle : ℕ → String × String)
    (db : DB) : List Buyer :=
  (List.range num_sales).map (fun i =>
    { id := nextId (db.buyers.map (fun b => b.id)) + i,
      name := (oracle i).1, phone := (oracle i).2 : Buyer })

/-- `insert_sales` (`insert_data.py`): creates `num_sales` buyers, selects
at most `num_sales` listings with `is_sold == 0`, and runs the per-listing
loop.  The function catches every exception internally
(rollback-and-print), so it never signals an error to its caller; the
`Except` codomain carries the specification's `DuplicateSaleError`
vocabulary to make that observable. -/
def insert_sales (num_sales : ℕ) (oracle : ℕ → String × String)
    (pick : ℕ → Listing → SDate) (db : DB) : Except SaleError DB :=
  let db1 := { db with buyers := db.buyers ++ newBuyersList num_sales oracle db }
  Except.ok (salesLoop pick (newBuyersList num_sales oracle db) 0
    ((db1.listings.filter (fun l => l.is_sold == 0)).take num_sales) db1)

/-- The `MonthlyCommission` key invariant: at most one row per
`(agent_id, date)` pair. -/
def MCKeyUnique (rows : List MonthlyCommission) : Prop :=
  rows.Pairwise (fun r1 r2 => ¬(r1.agent_id = r2.agent_id ∧ r1.date = r2.date))

/-- The correspondence `insert_sales` establishes between a `Commission`
row and the `Sale` row it was created for. -/
def CommMatchesSale (c : Commission) (s : Sale) : Prop :=
  c.sale_id = s.id ∧ c.agent_id = s.selling_agent_id ∧
  c.amount = s.sale_price * get_commission_rate s.sale_price ∧
  c.date_of_commission = s.date_of_sale

/-- A store with every table empty. -/
def emptyDB : DB :=
  { offices := [], agents := [], agent_office := [], sellers := [],
    buyers := [], listings := [], sales := [], commissions := [],
    month_commissions := [] }

/-- Concrete agent used by the scenario stores. -/
def agentA : Agent := { id := 1, name := "A", email := "a@x", phone := "111" }

/-- Scenario store: agent A with two April-2023 commissions of 11250 and
8000. -/
def scenDB : DB :=
  { emptyDB with
    agents := [agentA],
    commissions :=
      [{ id := 1, agent_id := 1, sale_id := 1, amount := 11250,
         date_of_commission := { year := 2023, month := 4, day := 10 } },
       { id := 2, agent_id := 1, sale_id := 2, amount := 8000,
         date_of_commission := { year := 2023, month := 4, day := 20 } }] }

/-- Concrete agents used by the top-agents scenario store. -/
def agentB : Agent := { id := 2, name := "B", email := "b@x", phone := "222" }

/-- Concrete agent used by the top-agents scenario store. -/
def agentC : Agent := { id := 3, name := "C", email := "c@x", phone := "333" }

/-- A scenario sale in April 2023 for a given selling agent. -/
def mkAprilSale (i aid day : ℕ) : Sale :=
  { id := i, buyer_id := 1, sale_price := 100,
    date_of_sale := { year := 2023, month := 4, day := (day : ℤ) },
    selling_agent_id := aid, office_id := 1, listing_id := i }

/-- Scenario store: agent B with 7 April-2023 sales and agent C with 3. -/
def db9 : DB :=
  { emptyDB with
    agents := [agentB, agentC],
    sales :=
      [mkAprilSale 1 2 1, mkAprilSale 2 2 2, mkAprilSale 3 2 3,
       mkAprilSale 4 2 4, mkAprilSale 5 2 5, mkAprilSale 6 2 6,
       mkAprilSale 7 2 7, mkAprilSale 8 3 8, mkAprilSale 9 3 9,
       mkAprilSale 10 3 10] }

/-- Scenario store: one sale dated March 2023, so the April 2023 window is
empty. -/
def db7 : DB :=
  { emptyDB with
    sales := [{ id := 1, buyer_id := 1, sale_price := 100,
                date_of_sale := { year := 2023, month := 3, day := 15 },
                selling_agent_id := 1, office_id := 1, listing_id := 1 }] }

/-- Fixed stand-in for the fake buyer name/phone generator. -/
def buyerOracle : ℕ → String × String := fun _ => ("B1", "P1")

/-- Fixed stand-in for the fake `date_between` sale-date draw. -/
def pickOracle : ℕ → Listing → SDate :=
  fun _ _ => { year := 2023, month := 4, day := 10 }

/-- A listing already flagged as sold. -/
def soldListing : Listing :=
  { id := 1, seller_id := 1, bedrooms := 3, bathrooms := 2,
    listing_price := 150000, zip_code := "11111",
    date_of_listing := { year := 2023, month := 3, day := 1 },
    listing_agent_id := 1, office_id := 1, is_sold := 1 }

/-- Scenario store whose only listing is already sold. -/
def dbSold : DB := { emptyDB with agents := [agentA], listings := [soldListing] }

/-- An unsold listing priced 150000, listed 2023-03-01. -/
def unsoldListing : Listing :=
  { id := 1, seller_id := 1, bedrooms := 3, bathrooms := 2,
    listing_price := 150000, zip_code := "11111",
    date_of_listing := { year := 2023, month := 3, day := 1 },
    listing_agent_id := 1, office_id := 1, is_sold := 0 }

/-- Scenario store with one unsold listing for agent A. -/
def db5 : DB := { emptyDB with agents := [agentA], listings := [unsoldListing] }

/-- Scenario store for the sold-listing theorems: one sold and one unsold
listing with distinct ids. -/
def db6 : DB :=
  { emptyDB with
    agents := [agentA],
    listings := [soldListing, { unsoldListing with id := 2 }] }

/-- C3: the commission rate function satisfies all eight stated boundary
values under first-match-wins tier order with inclusive lower and exclusive
upper bounds: rate(99999.99)=0.10, rate(100000)=0.075, rate(199999.99)=0.075,
rate(200000)=0.06, rate(499999.99)=0.06, rate(500000)=0.05,
rate(999999.99)=0.05, rate(1000000)=0.04. -/
theorem commission_rate_boundary_values :
    get_commission_rate 99999.99 = 0.10 ∧
    get_commission_rate 100000 = 0.075 ∧
    get_commission_rate 199999.99 = 0.075 ∧
    get_commission_rate 200000 = 0.06 ∧
    get_commission_rate 499999.99 = 0.06 ∧
    get_commission_rate 500000 = 0.05 ∧
    get_commission_rate 999999.99 = 0.05 ∧
    get_commission_rate 1000000 = 0.04 := by
  norm_num [get_commission_rate]

/-- C4: for every sale_price ≥ 0 the rate is one of
{0.10, 0.075, 0.06, 0.05, 0.04}; the rate is monotonically non-increasing in
the sale price; and the function is total on negative prices, returning the
lowest-tier rate 0.10. -/
theorem commission_rate_total_monotone :
    (∀ p : ℚ, 0 ≤ p →
      get_commission_rate p = 0.10 ∨ get_commission_rate p = 0.075 ∨
      get_commission_rate p = 0.06 ∨ get_commission_rate p = 0.05 ∨
      get_commission_rate p = 0.04) ∧
    (∀ p q : ℚ, p ≤ q → get_commission_rate q ≤ get_commission_rate p) ∧
    (∀ p : ℚ, p < 0 → get_commission_rate p = 0.10) := by
  refine ⟨?_, ?_, ?_⟩
  · intro p _
    unfold get_commission_rate
    split_ifs <;> norm_num
  · intro p q hpq
    unfold get_commission_rate
    split_ifs <;> try norm_num
    all_goals linarith
  · intro p hp
    unfold get_commission_rate
    rw [if_pos (by linarith)]

/-- Closed witness for C4: the rate properties applied at concrete prices. -/
theorem commission_rate_total_monotone_witness :
    (get_commission_rate 150000 = 0.10 ∨ get_commission_rate 150000 = 0.075 ∨
     get_commission_rate 150000 = 0.06 ∨ get_commission_rate 150000 = 0.05 ∨
     get_commission_rate 150000 = 0.04) ∧
    get_commission_rate 250000 ≤ get_commission_rate 150000 ∧
    get_commission_rate (-5) = 0.10 :=
  ⟨commission_rate_total_monotone.1 150000 (by norm_num),
   commission_rate_total_monotone.2.1 150000 250000 (by norm_num),
   commission_rate_total_monotone.2.2 (-5) (by norm_num)⟩

/-- C10: `print_monthly_commission_table` is not total over the valid month
range: for month = 1 and any year it builds `datetime(year, 0, 1)`, whose
month 0 is invalid, so the call fails with an error instead of printing the
table. -/
theorem print_monthly_commission_table_january_fails (year : ℤ) (db : DB) :
    print_monthly_commission_table year 1 db = none := by
  have h0 : mkDatetime year 0 1 = none := by
    unfold mkDatetime
    rw [if_neg]
    intro h
    omega
  unfold print_monthly_commission_table
  norm_num [h0]

theorem insertDescBy_perm {α β : Type} [LinearOrder β] (key : α → β) (x : α)
    (l : List α) : List.Perm (insertDescBy key x l) (x :: l) := by
  induction l with
  | nil => simp [insertDescBy]
  | cons y ys ih =>
    rw [insertDescBy]
    by_cases hxy : key y < key x
    · rw [if_pos hxy]
    · rw [if_neg hxy]
      exact (ih.cons y).trans (List.Perm.swap x y ys)

theorem sortDescBy_perm {α β : Type} [LinearOrder β] (key : α → β)
    (l : List α) : List.Perm (sortDescBy key l) l := by
  induction l with
  | nil => simp [sortDescBy]
  | cons x xs ih =>
    rw [sortDescBy]
    exact (insertDescBy_perm key x _).trans (ih.cons x)

theorem insertDescBy_pairwise {α β : Type} [LinearOrder β] (key : α → β)
    (x : α) (l : List α) (h : l.Pairwise (fun a b => key b ≤ key a)) :
    (insertDescBy key x l).Pairwise (fun a b => key b ≤ key a) := by
  induction l with
  | nil => simp [insertDescBy]
  | cons y ys ih =>
    obtain ⟨hy, hys⟩ := List.pairwise_cons.mp h
    rw [insertDescBy]
    by_cases hxy : key y < key x
    · rw [if_pos hxy]
      refine List.pairwise_cons.mpr ⟨?_, h⟩
      intro b hb
      rcases List.mem_cons.mp hb with rfl | hb'
      · exact le_of_lt hxy
      · exact (hy b hb').trans (le_of_lt hxy)
    · rw [if_neg hxy]
      refine List.pairwise_cons.mpr ⟨?_, ih hys⟩
      intro b hb
      rcases List.mem_cons.mp ((insertDescBy_perm key x ys).subset hb) with rfl | hb'
      · exact le_of_not_lt hxy
      · exact hy b hb'

theorem sortDescBy_pairwise {α β : Type} [LinearOrder β] (key : α → β)
    (l : List α) :
    (sortDescBy key l).Pairwise (fun a b => key b ≤ key a) := by
  induction l with
  | nil => simp [sortDescBy]
  | cons x xs ih =>
    rw [sortDescBy]
    exact insertDescBy_pairwise key x _ ih

theorem rollupInsert_mem_mono (en : SDate) (pairs : List (ℕ × ℚ)) :
    ∀ (rows : List MonthlyCommission) (r : MonthlyCommission), r ∈ rows →
      r ∈ rollupInsert en pairs rows := by
  induction pairs with
  | nil => intro rows r hr; simpa [rollupInsert] using hr
  | cons hd rest ih =>
    obtain ⟨a, t⟩ := hd
    intro rows r hr
    rw [rollupInsert]
    by_cases hpos :
        0 < (rows.filter fun r => decide (r.agent_id = a ∧ r.date = en)).length
    · rw [if_pos hpos]
      exact ih rows r hr
    · rw [if_neg hpos]
      exact ih _ r (List.mem_append_left _ hr)

theorem rollupInsert_covers (en : SDate) (pairs : List (ℕ × ℚ)) :
    ∀ (rows : List MonthlyCommission), ∀ p ∈ pairs,
      ∃ r ∈ rollupInsert en pairs rows, r.agent_id = p.1 ∧ r.date = en := by
  induction pairs with
  | nil => intro rows p hp; cases hp
  | cons hd rest ih =>
    obtain ⟨a, t⟩ := hd
    intro rows p hp
    rw [rollupInsert]
    by_cases hpos :
        0 < (rows.filter fun r => decide (r.agent_id = a ∧ r.date = en)).length
    · rw [if_pos hpos]
      rcases List.mem_cons.mp hp with rfl | hp'
      · have hne : (rows.filter fun r =>
            decide (r.agent_id = a ∧ r.date = en)) ≠ [] := by
          intro h0
          rw [h0] at hpos
          simp at hpos
        obtain ⟨r, hrf⟩ := List.exists_mem_of_ne_nil _ hne
        have hr := List.mem_filter.mp hrf
        refine ⟨r, rollupInsert_mem_mono en rest rows r hr.1, ?_⟩
        simpa using hr.2
      · exact ih rows p hp'
    · rw [if_neg hpos]
      rcases List.mem_cons.mp hp with rfl | hp'
      · refine ⟨{ id := nextId (rows.map (fun r => r.id)), agent_id := a,
                  date := en, amount := t }, ?_, rfl, rfl⟩
        exact rollupInsert_mem_mono en rest _ _
          (List.mem_append_right _ (List.mem_singleton.mpr rfl))
      · exact ih _ p hp'

theorem rollupInsert_noop (en : SDate) (pairs : List (ℕ × ℚ))
    (rows : List MonthlyCommission) :
    (∀ p ∈ pairs, ∃ r ∈ rows, r.agent_id = p.1 ∧ r.date = en) →
    rollupInsert en pairs rows = rows := by
  induction pairs with
  | nil => intro _; rfl
  | cons hd rest ih =>
    obtain ⟨a, t⟩ := hd
    intro h
    obtain ⟨r, hr, ha, hdate⟩ := h (a, t) (List.mem_cons_self _ _)
    have hpos :
        0 < (rows.filter fun r => decide (r.agent_id = a ∧ r.date = en)).length := by
      have hm : r ∈ rows.filter fun r => decide (r.agent_id = a ∧ r.date = en) :=
        List.mem_filter.mpr ⟨hr, by simp [ha, hdate]⟩
      exact List.length_pos.mpr (fun h0 => by rw [h0] at hm; cases hm)
    rw [rollupInsert, if_pos hpos]
    exact ih (fun p hp => h p (List.mem_cons_of_mem _ hp))

theorem rollupInsert_keyUnique (en : SDate) (pairs : List (ℕ × ℚ)) :
    ∀ (rows : List MonthlyCommission), MCKeyUnique rows →
      MCKeyUnique (rollupInsert en pairs rows) := by
  induction pairs with
  | nil => intro rows h; simpa [rollupInsert] using h
  | cons hd rest ih =>
    obtain ⟨a, t⟩ := hd
    intro rows h
    rw [rollupInsert]
    by_cases hpos :
        0 < (rows.filter fun r => decide (r.agent_id = a ∧ r.date = en)).length
    · rw [if_pos hpos]
      exact ih rows h
    · rw [if_neg hpos]
      apply ih
      have hnil : rows.filter (fun r => decide (r.agent_id = a ∧ r.date = en)) = [] := by
        by_contra hne
        exact hpos (List.length_pos.mpr hne)
      unfold MCKeyUnique at h ⊢
      rw [List.pairwise_append]
      refine ⟨h, List.pairwise_singleton _ _, ?_⟩
      intro r hr b hb
      rw [List.mem_singleton] at hb
      subst hb
      have := List.filter_eq_nil_iff.mp hnil r hr
      simpa using this

theorem get_total_commission_eq_none (year month : ℤ) (db : DB)
    (hw : monthWindow year month = none) :
    get_total_commission year month db = none := by
  unfold get_total_commission
  rw [hw]

theorem get_total_commission_eq_some (year month : ℤ) (db : DB)
    (st en : SDate) (hw : monthWindow year month = some (st, en)) :
    get_total_commission year month db =
      some { db with
             month_commissions :=
               rollupInsert en (sortDescBy Prod.snd (rollupPairs db st en))
                 db.month_commissions } := by
  unfold get_total_commission
  rw [hw]

/-- C2: running the monthly rollup twice consecutively for the same
(year, month) leaves the `MonthlyCommission` table (and the whole store) in
the same state as running it once: the second call skips every
(agent_id, date=end) pair and inserts nothing further. -/
theorem get_total_commission_idempotent (year month : ℤ) (db db' : DB)
    (hrun : get_total_commission year month db = some db') :
    get_total_commission year month db' = some db' := by
  rcases hw : monthWindow year month with _ | ⟨st, en⟩
  · rw [get_total_commission_eq_none year month db hw] at hrun
    cases hrun
  · rw [get_total_commission_eq_some year month db st en hw] at hrun
    rw [Option.some.injEq] at hrun
    subst hrun
    rw [get_total_commission_eq_some year month _ st en hw]
    have hpairs :
        rollupPairs
          { db with
            month_commissions :=
              rollupInsert en (sortDescBy Prod.snd (rollupPairs db st en))
                db.month_commissions } st en = rollupPairs db st en := rfl
    have hnoop :
        rollupInsert en (sortDescBy Prod.snd (rollupPairs db st en))
          (rollupInsert en (sortDescBy Prod.snd (rollupPairs db st en))
            db.month_commissions) =
        rollupInsert en (sortDescBy Prod.snd (rollupPairs db st en))
          db.month_commissions :=
      rollupInsert_noop en _ _ (fun p hp =>
        rollupInsert_covers en _ db.month_commissions p hp)
    simp only [hpairs, hnoop]

/-- Closed witness for C2: the rollup for April 2023 on the two-commission
scenario store, run twice, equals the single run. -/
theorem get_total_commission_idempotent_witness :
    ∃ db', get_total_commission 2023 4 scenDB = some db' ∧
      get_total_commission 2023 4 db' = some db' :=
  ⟨_, rfl, get_total_commission_idempotent 2023 4 scenDB _ rfl⟩

theorem salesLoop_month_commissions (pick : ℕ → Listing → SDate)
    (buyers : List Buyer) :
    ∀ (pend : List Listing) (idx : ℕ) (db : DB),
      (salesLoop pick buyers idx pend db).month_commissions =
        db.month_commissions := by
  intro pend
  induction pend with
  | nil => intro idx db; rfl
  | cons l rest ih =>
    intro idx db
    rw [salesLoop]
    rw [ih]
    rfl

/-- C8: in every state reachable by the program's operations, the
`MonthlyCommission` table has at most one row per (agent_id, date) pair: the
only writer, the monthly rollup, preserves the invariant via its
check-before-insert, and `insert_sales` never touches the table. -/
theorem monthly_commission_key_unique_preserved (year month : ℤ) (n : ℕ)
    (oracle : ℕ → String × String) (pick : ℕ → Listing → SDate) (db : DB)
    (hinv : MCKeyUnique db.month_commissions) :
    (∀ db', get_total_commission year month db = some db' →
      MCKeyUnique db'.month_commissions) ∧
    (∀ db', insert_sales n oracle pick db = Except.ok db' →
      db'.month_commissions = db.month_commissions ∧
      MCKeyUnique db'.month_commissions) := by
  constructor
  · intro db' hrun
    rcases hw : monthWindow year month with _ | ⟨st, en⟩
    · rw [get_total_commission_eq_none year month db hw] at hrun
      cases hrun
    · rw [get_total_commission_eq_some year month db st en hw] at hrun
      rw [Option.some.injEq] at hrun
      subst hrun
      exact rollupInsert_keyUnique en _ db.month_commissions hinv
  · intro db' hrun
    unfold insert_sales at hrun
    simp only [Except.ok.injEq] at hrun
    subst hrun
    rw [salesLoop_month_commissions]
    exact ⟨rfl, hinv⟩

theorem mkDatetime_eq (y m d : ℤ) (s : SDate) (h : mkDatetime y m d = some s) :
    s = { year := y, month := m, day := d } := by
  unfold mkDatetime at h
  split at h
  · exact (Option.some.injEq _ _ ▸ h).symm
  · cases h

theorem monthWindow_eq (year month : ℤ) (st en : SDate)
    (h : monthWindow year month = some (st, en)) :
    st = { year := year, month := month, day := 1 } ∧
    en = (if month = 12 then
            ({ year := year + 1, month := 1, day := 1 } : SDate)
          else { year := year, month := month + 1, day := 1 }) := by
  unfold monthWindow at h
  split at h
  · cases h
  · next s1 heq1 =>
    split at h
    · cases h
    · next s2 heq2 =>
      rw [Option.some.injEq, Prod.mk.injEq] at h
      obtain ⟨h1, h2⟩ := h
      subst h1
      subst h2
      refine ⟨mkDatetime_eq _ _ _ _ heq1, ?_⟩
      by_cases hm : month = 12
      · rw [if_pos hm] at heq2 ⊢
        exact mkDatetime_eq _ _ _ _ heq2
      · rw [if_neg hm] at heq2 ⊢
        exact mkDatetime_eq _ _ _ _ heq2

theorem rollupInsert_fresh (en : SDate) (pairs : List (ℕ × ℚ)) :
    ∀ (rows : List MonthlyCommission),
      (∀ r ∈ rows, r.date = en → r.agent_id ∉ pairs.map Prod.fst) →
      (pairs.map Prod.fst).Nodup →
      ∃ newRows, rollupInsert en pairs rows = rows ++ newRows ∧
        newRows.map (fun r => (r.agent_id, r.date, r.amount)) =
          pairs.map (fun p => (p.1, en, p.2)) := by
  induction pairs with
  | nil => exact fun rows _ _ => ⟨[], by simp [rollupInsert], by simp⟩
  | cons hd rest ih =>
    obtain ⟨a, t⟩ := hd
    intro rows hfresh hnd
    have hnd' : (a :: rest.map Prod.fst).Nodup := by simpa using hnd
    have hnil : rows.filter (fun r => decide (r.agent_id = a ∧ r.date = en)) = [] := by
      rw [List.filter_eq_nil_iff]
      intro r hr
      simp only [decide_eq_true_eq]
      rintro ⟨ha, hdate⟩
      exact hfresh r hr hdate (by simp [ha])
    have hpos :
        ¬ 0 < (rows.filter (fun r => decide (r.agent_id = a ∧ r.date = en))).length := by
      rw [hnil]
      simp
    rw [rollupInsert, if_neg hpos]
    have hfresh' : ∀ r ∈ rows ++
        [({ id := nextId (rows.map (fun r => r.id)),
            agent_id := a, date := en, amount := t } : MonthlyCommission)],
        r.date = en → r.agent_id ∉ rest.map Prod.fst := by
      intro r hr hdate
      rcases List.mem_append.mp hr with hr' | hr'
      · intro hmem
        exact hfresh r hr' hdate (by simp [hmem])
      · rw [List.mem_singleton] at hr'
        subst hr'
        simpa using (List.nodup_cons.mp hnd').1
    obtain ⟨newRows, heq, hmap⟩ := ih
      (rows ++ [{ id := nextId (rows.map (fun r => r.id)), agent_id := a,
                  date := en, amount := t }])
      hfresh' (List.nodup_cons.mp hnd').2
    refine ⟨{ id := nextId (rows.map (fun r => r.id)), agent_id := a,
              date := en, amount := t } :: newRows, ?_, ?_⟩
    · rw [heq]
      simp
    · simpa using hmap

theorem countP_eq_one_of_nodup_map (a : Agent) :
    ∀ (l : List Agent), (l.map (fun x => x.id)).Nodup → a ∈ l →
      l.countP (fun x => decide (x.id = a.id)) = 1 := by
  intro l
  induction l with
  | nil => intro _ ha; cases ha
  | cons x xs ih =>
    intro hnd ha
    rw [List.map_cons] at hnd
    obtain ⟨hx, hxs⟩ := List.nodup_cons.mp hnd
    rcases List.mem_cons.mp ha with rfl | ha'
    · rw [List.countP_cons]
      have h0 : xs.countP (fun x => decide (x.id = a.id)) = 0 := by
        rw [List.countP_eq_zero]
        intro b hb
        simp only [decide_eq_true_eq]
        intro hba
        exact hx (hba ▸ List.mem_map_of_mem _ hb)
      simp [h0]
    · rw [List.countP_cons]
      have hpx : ¬ (decide (x.id = a.id) = true) := by
        simp only [decide_eq_true_eq]
        intro hxa
        exact hx (hxa ▸ List.mem_map_of_mem _ ha')
      rw [ih hxs ha']
      simp [hpx]

/-- C1: for every year and month the rollup uses the half-open window
[first day of that month, first day of the following month), the year
rolling over at December, and for each agent with at least one in-window
`Commission` it inserts exactly one `MonthlyCommission` row, dated with the
window's exclusive end, whose amount is the agent's in-window sum. -/
theorem get_total_commission_window_totals (year month : ℤ) (db db' : DB)
    (st en : SDate)
    (hw : monthWindow year month = some (st, en))
    (hrun : get_total_commission year month db = some db')
    (hA : (db.agents.map (fun a => a.id)).Nodup)
    (hfresh : ∀ r ∈ db.month_commissions, r.date ≠ en) :
    st = { year := year, month := month, day := 1 } ∧
    en = (if month = 12 then
            ({ year := year + 1, month := 1, day := 1 } : SDate)
          else { year := year, month := month + 1, day := 1 }) ∧
    ∃ newRows,
      db'.month_commissions = db.month_commissions ++ newRows ∧
      (∀ r ∈ newRows, r.date = en) ∧
      (∀ a ∈ db.agents, commsOfAgentInWindow db st en a.id ≠ [] →
        (newRows.filter (fun r => decide (r.agent_id = a.id))).length = 1 ∧
        ∀ r ∈ newRows, r.agent_id = a.id →
          r.amount = ((commsOfAgentInWindow db st en a.id).map
                        (fun c => c.amount)).sum) ∧
      (∀ r ∈ newRows, ∃ a ∈ db.agents, r.agent_id = a.id ∧
        commsOfAgentInWindow db st en a.id ≠ [] ∧
        r.amount = ((commsOfAgentInWindow db st en a.id).map
                      (fun c => c.amount)).sum) := by
  obtain ⟨hst, hen⟩ := monthWindow_eq year month st en hw
  refine ⟨hst, hen, ?_⟩
  rw [get_total_commission_eq_some year month db st en hw,
      Option.some.injEq] at hrun
  subst hrun
  have hperm : List.Perm (sortDescBy Prod.snd (rollupPairs db st en))
      (rollupPairs db st en) := sortDescBy_perm _ _
  have hkeysub :
      List.Sublist
        ((db.agents.filter (fun a =>
            !(commsOfAgentInWindow db st en a.id).isEmpty)).map (fun a => a.id))
        (db.agents.map (fun a => a.id)) :=
    (List.filter_sublist _).map _
  have hkeys : ((rollupPairs db st en).map Prod.fst).Nodup := by
    unfold rollupPairs
    rw [List.map_map]
    exact hA.sublist hkeysub
  have hkeys' : ((sortDescBy Prod.snd (rollupPairs db st en)).map Prod.fst).Nodup :=
    ((hperm.map Prod.fst).nodup_iff).mpr hkeys
  obtain ⟨newRows, heq, hmap⟩ :=
    rollupInsert_fresh en (sortDescBy Prod.snd (rollupPairs db st en))
      db.month_commissions
      (fun r hr hdate => absurd hdate (hfresh r hr)) hkeys'
  refine ⟨newRows, heq, ?_, ?_, ?_⟩
  · intro r hr
    have h1 : (r.agent_id, r.date, r.amount) ∈
        (sortDescBy Prod.snd (rollupPairs db st en)).map (fun p => (p.1, en, p.2)) := by
      rw [← hmap]
      exact List.mem_map_of_mem _ hr
    obtain ⟨p, _, hp⟩ := List.mem_map.mp h1
    rw [Prod.mk.injEq, Prod.mk.injEq] at hp
    exact hp.2.1.symm
  · intro a ha hne
    have hmem : a ∈ db.agents.filter (fun a =>
        !(commsOfAgentInWindow db st en a.id).isEmpty) :=
      List.mem_filter.mpr ⟨ha, by simpa [List.isEmpty_iff] using hne⟩
    constructor
    · rw [← List.countP_eq_length_filter]
      have e1 : newRows.countP (fun r => decide (r.agent_id = a.id)) =
          (newRows.map (fun r => (r.agent_id, r.date, r.amount))).countP
            (fun t => decide (t.1 = a.id)) := by
        rw [List.countP_map]
        rfl
      rw [e1, hmap, List.countP_map,
          (sortDescBy_perm Prod.snd (rollupPairs db st en)).countP_eq]
      unfold rollupPairs
      rw [List.countP_map]
      exact countP_eq_one_of_nodup_map a _ (hA.sublist hkeysub) hmem
    · intro r hr hra
      have h1 : (r.agent_id, r.date, r.amount) ∈
          (sortDescBy Prod.snd (rollupPairs db st en)).map (fun p => (p.1, en, p.2)) := by
        rw [← hmap]
        exact List.mem_map_of_mem _ hr
      obtain ⟨p, hpmem, hp⟩ := List.mem_map.mp h1
      have hp2 : p ∈ rollupPairs db st en := hperm.subset hpmem
      unfold rollupPairs at hp2
      obtain ⟨a', _, hpa⟩ := List.mem_map.mp hp2
      subst hpa
      rw [Prod.mk.injEq, Prod.mk.injEq] at hp
      obtain ⟨hp1, _, hp3⟩ := hp
      have hid : a'.id = a.id := by
        rw [← hra]
        exact hp1
      rw [← hp3, hid]
  · intro r hr
    have h1 : (r.agent_id, r.date, r.amount) ∈
        (sortDescBy Prod.snd (rollupPairs db st en)).map (fun p => (p.1, en, p.2)) := by
      rw [← hmap]
      exact List.mem_map_of_mem _ hr
    obtain ⟨p, hpmem, hp⟩ := List.mem_map.mp h1
    have hp2 : p ∈ rollupPairs db st en := hperm.subset hpmem
    unfold rollupPairs at hp2
    obtain ⟨a', ha', hpa⟩ := List.mem_map.mp hp2
    subst hpa
    rw [Prod.mk.injEq, Prod.mk.injEq] at hp
    obtain ⟨hp1, _, hp3⟩ := hp
    refine ⟨a', (List.mem_filter.mp ha').1, hp1.symm, ?_, hp3.symm⟩
    simpa [List.isEmpty_iff] using (List.mem_filter.mp ha').2

/-- Closed witness for C1: the April 2023 rollup on the two-commission
scenario store. -/
theorem get_total_commission_window_totals_witness :
    ({ year := 2023, month := 4, day := 1 } : SDate) =
      { year := 2023, month := 4, day := 1 } ∧
    ({ year := 2023, month := 5, day := 1 } : SDate) =
      (if (4 : ℤ) = 12 then
        ({ year := 2024, month := 1, day := 1 } : SDate)
      else { year := 2023, month := 5, day := 1 }) ∧
    ∃ newRows, ∃ db',
      get_total_commission 2023 4 scenDB = some db' ∧
      db'.month_commissions = scenDB.month_commissions ++ newRows ∧
      ∀ a ∈ scenDB.agents,
        commsOfAgentInWindow scenDB { year := 2023, month := 4, day := 1 }
          { year := 2023, month := 5, day := 1 } a.id ≠ [] →
        (newRows.filter (fun r => decide (r.agent_id = a.id))).length = 1 := by
  obtain ⟨h1, h2, newRows, heq, _, hcount, _⟩ :=
    get_total_commission_window_totals 2023 4 scenDB _
      { year := 2023, month := 4, day := 1 }
      { year := 2023, month := 5, day := 1 } rfl rfl (by decide)
      (by intro r hr; cases hr)
  exact ⟨h1, h2, newRows, _, rfl, heq,
    fun a ha hne => (hcount a ha hne).1⟩

/-- C7: for a year/month window containing zero `Sale` rows, both
`average_days_on_market_monthly` and `average_selling_price_monthly` return
SQL NULL (Python `None`, here the inner `none`) — no division by zero, no
exception. -/
theorem empty_window_averages_none (year month : ℤ) (db : DB) (st en : SDate)
    (hw : monthWindow year month = some (st, en))
    (hempty : ∀ s ∈ db.sales,
      ¬(dateLE st s.date_of_sale ∧ dateLT s.date_of_sale en)) :
    average_days_on_market_monthly year month db = some none ∧
    average_selling_price_monthly year month db = some none := by
  constructor
  · have hvals : db.sales.filterMap (fun s =>
        if dateLE st s.date_of_sale ∧ dateLT s.date_of_sale en then
          (db.listings.find? (fun l => decide (l.id = s.listing_id))).map
            (fun l => ((ratadie s.date_of_sale - ratadie l.date_of_listing : ℤ) : ℚ))
        else none) = [] := by
      rw [List.filterMap_eq_nil_iff]
      intro s hs
      rw [if_neg (hempty s hs)]
    unfold average_days_on_market_monthly
    rw [hw]
    dsimp only
    rw [hvals]
    simp
  · have hprices : db.sales.filter (fun s =>
        decide (dateLE st s.date_of_sale ∧ dateLT s.date_of_sale en)) = [] := by
      rw [List.filter_eq_nil_iff]
      intro s hs
      simpa using hempty s hs
    unfold average_selling_price_monthly
    rw [hw]
    dsimp only
    rw [hprices]
    simp

/-- Closed witness for C7: the April 2023 window of the store whose only
sale is dated March 2023 is empty, and both averages return `none`. -/
theorem empty_window_averages_none_witness :
    average_days_on_market_monthly 2023 4 db7 = some none ∧
    average_selling_price_monthly 2023 4 db7 = some none :=
  empty_window_averages_none 2023 4 db7
    { year := 2023, month := 4, day := 1 }
    { year := 2023, month := 5, day := 1 } rfl (by decide)

theorem top_agents_eq_some (year month : ℤ) (db : DB) (st en : SDate)
    (hw : monthWindow year month = some (st, en)) :
    top_agents_by_sales_monthly year month db =
      some (((sortDescBy Prod.snd
        ((db.agents.filter (fun a =>
            !(salesOfAgentInWindow db st en a.id).isEmpty)).map
          (fun a => (a, (salesOfAgentInWindow db st en a.id).length)))).take 5).map
        (fun g => { agent_id := g.1.id, name := g.1.name, email := g.1.email,
                    phone := g.1.phone, sales_count := g.2 })) := by
  unfold top_agents_by_sales_monthly
  rw [hw]

/-- C9: `top_agents_by_sales_monthly` returns one row per agent with at
least one in-window sale (via selling_agent_id), carrying that agent's sale
count, ordered by count descending and truncated to 5 rows. -/
theorem top_agents_by_sales_rows (year month : ℤ) (db : DB)
    (res : List AgentSalesRow) (st en : SDate)
    (hw : monthWindow year month = some (st, en))
    (hrun : top_agents_by_sales_monthly year month db = some res)
    (hA : (db.agents.map (fun a => a.id)).Nodup) :
    res.length = min 5 (db.agents.filter (fun a =>
        !(salesOfAgentInWindow db st en a.id).isEmpty)).length ∧
    (∀ r ∈ res, ∃ a ∈ db.agents,
      r = { agent_id := a.id, name := a.name, email := a.email,
            phone := a.phone,
            sales_count := (salesOfAgentInWindow db st en a.id).length } ∧
      salesOfAgentInWindow db st en a.id ≠ []) ∧
    res.Pairwise (fun r1 r2 => r2.sales_count ≤ r1.sales_count) ∧
    (res.map (fun r => r.agent_id)).Nodup ∧
    ((db.agents.filter (fun a =>
        !(salesOfAgentInWindow db st en a.id).isEmpty)).length ≤ 5 →
      ∀ a ∈ db.agents, salesOfAgentInWindow db st en a.id ≠ [] →
        ∃ r ∈ res, r.agent_id = a.id ∧
          r.sales_count = (salesOfAgentInWindow db st en a.id).length) := by
  rw [top_agents_eq_some year month db st en hw, Option.some.injEq] at hrun
  subst hrun
  have hperm : List.Perm
      (sortDescBy Prod.snd ((db.agents.filter (fun a =>
          !(salesOfAgentInWindow db st en a.id).isEmpty)).map
        (fun a => (a, (salesOfAgentInWindow db st en a.id).length))))
      ((db.agents.filter (fun a =>
          !(salesOfAgentInWindow db st en a.id).isEmpty)).map
        (fun a => (a, (salesOfAgentInWindow db st en a.id).length))) :=
    sortDescBy_perm _ _
  refine ⟨?_, ?_, ?_, ?_, ?_⟩
  · rw [List.length_map, List.length_take, hperm.length_eq, List.length_map]
  · intro r hr
    obtain ⟨g, hg, hgr⟩ := List.mem_map.mp hr
    have hg2 := hperm.subset ((List.take_sublist 5 _).subset hg)
    obtain ⟨a, ha, hag⟩ := List.mem_map.mp hg2
    subst hag
    refine ⟨a, (List.mem_filter.mp ha).1, hgr.symm, ?_⟩
    simpa [List.isEmpty_iff] using (List.mem_filter.mp ha).2
  · refine List.Pairwise.map _ (fun g1 g2 h => h) ?_
    exact List.Pairwise.sublist (List.take_sublist 5 _) (sortDescBy_pairwise _ _)
  · rw [List.map_map]
    have hsub : List.Sublist
        (((sortDescBy Prod.snd ((db.agents.filter (fun a =>
              !(salesOfAgentInWindow db st en a.id).isEmpty)).map
            (fun a => (a, (salesOfAgentInWindow db st en a.id).length)))).take 5).map
          (fun g => g.1.id))
        ((sortDescBy Prod.snd ((db.agents.filter (fun a =>
              !(salesOfAgentInWindow db st en a.id).isEmpty)).map
            (fun a => (a, (salesOfAgentInWindow db st en a.id).length)))).map
          (fun g => g.1.id)) :=
      (List.take_sublist 5 _).map _
    have hnd : ((sortDescBy Prod.snd ((db.agents.filter (fun a =>
          !(salesOfAgentInWindow db st en a.id).isEmpty)).map
        (fun a => (a, (salesOfAgentInWindow db st en a.id).length)))).map
          (fun g => g.1.id)).Nodup := by
      refine ((hperm.map _).nodup_iff).mpr ?_
      rw [List.map_map]
      exact hA.sublist ((List.filter_sublist _).map _)
    exact (hnd.sublist hsub)
  · intro hle a ha hne
    have hlen : (sortDescBy Prod.snd ((db.agents.filter (fun a =>
        !(salesOfAgentInWindow db st en a.id).isEmpty)).map
          (fun a => (a, (salesOfAgentInWindow db st en a.id).length)))).length ≤ 5 := by
      rw [hperm.length_eq, List.length_map]
      exact hle
    rw [List.take_of_length_le hlen]
    have hmem : a ∈ db.agents.filter (fun a =>
        !(salesOfAgentInWindow db st en a.id).isEmpty) :=
      List.mem_filter.mpr ⟨ha, by simpa [List.isEmpty_iff] using hne⟩
    have hg : (a, (salesOfAgentInWindow db st en a.id).length) ∈
        sortDescBy Prod.snd ((db.agents.filter (fun a =>
          !(salesOfAgentInWindow db st en a.id).isEmpty)).map
            (fun a => (a, (salesOfAgentInWindow db st en a.id).length))) :=
      hperm.mem_iff.mpr (List.mem_map_of_mem _ hmem)
    exact ⟨_, List.mem_map_of_mem _ hg, rfl, rfl⟩

/-- Closed witness for C9: agent B with 7 April-2023 sales and agent C with
3 yield exactly 2 rows, B's before C's, with correct counts. -/
theorem top_agents_by_sales_rows_witness :
    top_agents_by_sales_monthly 2023 4 db9 =
      some [{ agent_id := 2, name := "B", email := "b@x", phone := "222",
              sales_count := 7 },
            { agent_id := 3, name := "C", email := "c@x", phone := "333",
              sales_count := 3 }] ∧
    ∃ res, top_agents_by_sales_monthly 2023 4 db9 = some res ∧
      res.length = min 5 (db9.agents.filter (fun a =>
        !(salesOfAgentInWindow db9 { year := 2023, month := 4, day := 1 }
            { year := 2023, month := 5, day := 1 } a.id).isEmpty)).length ∧
      res.Pairwise (fun r1 r2 => r2.sales_count ≤ r1.sales_count) := by
  have h := top_agents_by_sales_rows 2023 4 db9 _
    { year := 2023, month := 4, day := 1 }
    { year := 2023, month := 5, day := 1 } rfl rfl (by decide)
  exact ⟨by decide, _, rfl, h.1, h.2.2.1⟩

theorem foldr_max_comm (l : List ℕ) :
    ∀ u v : ℕ, l.foldr max (max u v) = max u (l.foldr max v) := by
  induction l with
  | nil => intro u v; rfl
  | cons x xs ih =>
    intro u v
    rw [List.foldr_cons, List.foldr_cons, ih, max_left_comm]

theorem maxId_append (ids : List ℕ) :
    (ids ++ [nextId ids]).foldr max 0 = nextId ids := by
  have h1 : ([nextId ids] : List ℕ).foldr max 0 = max (nextId ids) 0 := rfl
  rw [List.foldr_append, h1, foldr_max_comm]
  exact max_eq_left (Nat.le_succ _)

theorem commissionRow_matches (pick : ℕ → Listing → SDate)
    (buyers : List Buyer) (idx : ℕ) (l : Listing) (db : DB) :
    CommMatchesSale (commissionRow pick buyers idx l db)
      (saleRow pick buyers idx l db) := by
  refine ⟨?_, rfl, rfl, rfl⟩
  show ((db.sales ++ [saleRow pick buyers idx l db]).map (fun s => s.id)).foldr
      max 0 = (saleRow pick buyers idx l db).id
  rw [List.map_append]
  exact maxId_append (db.sales.map (fun s => s.id))

theorem salesLoop_spec (pick : ℕ → Listing → SDate) (buyers : List Buyer) :
    ∀ (pend : List Listing) (idx : ℕ) (db : DB),
      ∃ newSales newComms,
        (salesLoop pick buyers idx pend db).sales = db.sales ++ newSales ∧
        (salesLoop pick buyers idx pend db).commissions =
          db.commissions ++ newComms ∧
        (∀ s ∈ newSales, ∃ l ∈ pend, s.listing_id = l.id ∧
          s.sale_price = l.listing_price ∧
          s.selling_agent_id = l.listing_agent_id ∧
          s.office_id = l.office_id) ∧
        List.Forall₂ CommMatchesSale newComms newSales ∧
        (∀ x ∈ db.listings, (∀ l ∈ pend, x.id ≠ l.id) →
          x ∈ (salesLoop pick buyers idx pend db).listings) := by
  intro pend
  induction pend with
  | nil =>
    intro idx db
    refine ⟨[], [], by simp [salesLoop], by simp [salesLoop], ?_,
      List.Forall₂.nil, ?_⟩
    · intro s hs
      cases hs
    · intro x hx _
      simpa [salesLoop] using hx
  | cons l rest ih =>
    intro idx db
    obtain ⟨nS, nC, hS, hC, hmemS, hQ, hL⟩ :=
      ih (idx + 1) (salesLoopStep pick buyers idx l db)
    rw [salesLoop]
    refine ⟨saleRow pick buyers idx l db :: nS,
      commissionRow pick buyers idx l db :: nC, ?_, ?_, ?_, ?_, ?_⟩
    · rw [hS]
      show (db.sales ++ [saleRow pick buyers idx l db]) ++ nS =
        db.sales ++ (saleRow pick buyers idx l db :: nS)
      simp
    · rw [hC]
      show (db.commissions ++ [commissionRow pick buyers idx l db]) ++ nC =
        db.commissions ++ (commissionRow pick buyers idx l db :: nC)
      simp
    · intro s hs
      rcases List.mem_cons.mp hs with rfl | hs'
      · exact ⟨l, List.mem_cons_self _ _, rfl, rfl, rfl, rfl⟩
      · obtain ⟨l', hl', hp⟩ := hmemS s hs'
        exact ⟨l', List.mem_cons_of_mem _ hl', hp⟩
    · exact List.Forall₂.cons (commissionRow_matches pick buyers idx l db) hQ
    · intro x hx hne
      have hx1 : x ∈ (salesLoopStep pick buyers idx l db).listings := by
        show x ∈ db.listings.map (fun z =>
          if z.id = l.id then { z with is_sold := 1 } else z)
        refine List.mem_map.mpr ⟨x, hx, ?_⟩
        rw [if_neg (hne l (List.mem_cons_self _ _))]
      exact hL x hx1 (fun l' hl' => hne l' (List.mem_cons_of_mem _ hl'))

theorem insert_sales_eq (num_sales : ℕ) (oracle : ℕ → String × String)
    (pick : ℕ → Listing → SDate) (db : DB) :
    insert_sales num_sales oracle pick db =
      Except.ok (salesLoop pick (newBuyersList num_sales oracle db) 0
        ((db.listings.filter (fun l => l.is_sold == 0)).take num_sales)
        { db with buyers := db.buyers ++ newBuyersList num_sales oracle db }) :=
  rfl

/-- C5: every sale created by `insert_sales` comes with exactly one
`Commission` row whose amount is `sale_price * rate(sale_price)` and whose
`date_of_commission` is the sale's `date_of_sale`, the sale price being
copied from the listing's `listing_price`. -/
theorem insert_sales_commission_per_sale (n : ℕ)
    (oracle : ℕ → String × String) (pick : ℕ → Listing → SDate)
    (db db' : DB) (hrun : insert_sales n oracle pick db = Except.ok db') :
    ∃ newSales newComms,
      db'.sales = db.sales ++ newSales ∧
      db'.commissions = db.commissions ++ newComms ∧
      (∀ s ∈ newSales, ∃ l ∈ db.listings, l.is_sold = 0 ∧
        s.listing_id = l.id ∧ s.sale_price = l.listing_price ∧
        s.selling_agent_id = l.listing_agent_id) ∧
      List.Forall₂ CommMatchesSale newComms newSales := by
  rw [insert_sales_eq, Except.ok.injEq] at hrun
  subst hrun
  obtain ⟨nS, nC, hS, hC, hmemS, hQ, _⟩ :=
    salesLoop_spec pick (newBuyersList n oracle db)
      ((db.listings.filter (fun l => l.is_sold == 0)).take n) 0
      { db with buyers := db.buyers ++ newBuyersList n oracle db }
  refine ⟨nS, nC, hS, hC, ?_, hQ⟩
  intro s hs
  obtain ⟨l, hl, h1, h2, h3, _⟩ := hmemS s hs
  have hl2 : l ∈ db.listings.filter (fun l => l.is_sold == 0) :=
    (List.take_sublist n _).subset hl
  have hl3 := List.mem_filter.mp hl2
  exact ⟨l, hl3.1, by simpa using hl3.2, h1, h2, h3⟩

/-- Closed witness for C5: inserting a sale for the 150000-priced unsold
listing pairs it with exactly one matching commission. -/
theorem insert_sales_commission_per_sale_witness :
    ∃ db', insert_sales 1 buyerOracle pickOracle db5 = Except.ok db' ∧
      ∃ newSales newComms,
        db'.sales = db5.sales ++ newSales ∧
        db'.commissions = db5.commissions ++ newComms ∧
        List.Forall₂ CommMatchesSale newComms newSales := by
  refine ⟨_, rfl, ?_⟩
  obtain ⟨nS, nC, h1, h2, _, h4⟩ :=
    insert_sales_commission_per_sale 1 buyerOracle pickOracle db5 _ rfl
  exact ⟨nS, nC, h1, h2, h4⟩

/-- Counterexample to C6 as stated: on a store whose only listing is
already sold, `insert_sales` does not fail with a `DuplicateSaleError` — it
returns normally (the sold listing is merely filtered out of the pending
query). -/
theorem insert_sales_no_duplicate_error_cex :
    (∃ l ∈ dbSold.listings, l.is_sold ≠ 0) ∧
    ∀ e : SaleError,
      insert_sales 1 buyerOracle pickOracle dbSold ≠ Except.error e := by
  constructor
  · exact ⟨soldListing, List.mem_cons_self _ _, by decide⟩
  · intro e h
    rw [insert_sales_eq] at h
    cases h

/-- C6 amended: `insert_sales` signals no error at all; a listing whose
`is_sold` flag is already set is excluded by the `is_sold == 0` filter, so
it is left unchanged and no new `Sale` references it. -/
theorem insert_sales_skips_sold_listings (n : ℕ)
    (oracle : ℕ → String × String) (pick : ℕ → Listing → SDate)
    (db db' : DB) (hrun : insert_sales n oracle pick db = Except.ok db')
    (hL : (db.listings.map (fun l => l.id)).Nodup) :
    ∀ l ∈ db.listings, l.is_sold ≠ 0 →
      l ∈ db'.listings ∧
      ∀ s ∈ db'.sales, s ∉ db.sales → s.listing_id ≠ l.id := by
  rw [insert_sales_eq, Except.ok.injEq] at hrun
  subst hrun
  obtain ⟨nS, nC, hS, hC, hmemS, hQ, hLres⟩ :=
    salesLoop_spec pick (newBuyersList n oracle db)
      ((db.listings.filter (fun l => l.is_sold == 0)).take n) 0
      { db with buyers := db.buyers ++ newBuyersList n oracle db }
  intro l hl hsold
  have hnotpend : ∀ l' ∈ (db.listings.filter (fun l => l.is_sold == 0)).take n,
      l.id ≠ l'.id := by
    intro l' hl' heq
    have hl'2 : l' ∈ db.listings.filter (fun l => l.is_sold == 0) :=
      (List.take_sublist n _).subset hl'
    have hl'3 := List.mem_filter.mp hl'2
    have : l = l' := List.inj_on_of_nodup_map hL hl hl'3.1 heq
    subst this
    exact hsold (by simpa using hl'3.2)
  constructor
  · exact hLres l hl hnotpend
  · intro s hs hnotold
    have hs2 : s ∈ nS := by
      rw [hS] at hs
      rcases List.mem_append.mp hs with h | h
      · exact absurd h hnotold
      · exact h
    obtain ⟨l', hl', h1, _⟩ := hmemS s hs2
    rw [h1]
    exact fun heq => hnotpend l' hl' heq.symm

/-- Closed witness for the amended C6: on the store with one sold and one
unsold listing, the sold one stays untouched and gains no sale. -/
theorem insert_sales_skips_sold_listings_witness :
    ∃ db', insert_sales 1 buyerOracle pickOracle db6 = Except.ok db' ∧
      (soldListing ∈ db'.listings ∧
        ∀ s ∈ db'.sales, s ∉ db6.sales → s.listing_id ≠ soldListing.id) := by
  refine ⟨_, rfl, ?_⟩
  exact insert_sales_skips_sold_listings 1 buyerOracle pickOracle db6 _ rfl
    (by decide) soldListing (List.mem_cons_self _ _) (by decide)

/-- Closed witness for C8: the invariant holds on the scenario store and is
preserved by the April 2023 rollup there. -/
theorem monthly_commission_key_unique_preserved_witness :
    MCKeyUnique scenDB.month_commissions ∧
    ∀ db', get_total_commission 2023 4 scenDB = some db' →
      MCKeyUnique db'.month_commissions :=
  ⟨List.Pairwise.nil,
   (monthly_commission_key_unique_preserved 2023 4 1 buyerOracle pickOracle
      scenDB List.Pairwise.nil).1⟩

end RealEstate
